import Mathlib

/-!
Verification of the covid-ppe-modeling repository (src/ppe).

This file gives a shallow embedding of the data model and operations of
`src/ppe/state.py`, `src/ppe/implement.py`, `src/ppe/dynamics.py` and (where
the scheduling kernel is concerned) the specified discrete-event kernel, and
proves or refutes the frozen claims about them.

Modelling conventions:
* Python `int` is `Int` (or `Nat` where the source value is a count);
  Python `float` timestamps are modelled as `Int` (claims only record and
  compare them, no fractional arithmetic is involved).
* A Python `set` is a `Finset Nat`.
* A Python `dict` is an association list `List (κ × α)`; `dlookup`,
  `dinsert`, `derase` mirror indexing, assignment and `del` on the first
  matching key.  Python guarantees unique keys; theorems that need this carry
  an explicit `Nodup` hypothesis on the key list.
* A raised exception is `Except.error`; `Err` distinguishes `KeyError`,
  `TypeError` and `RuntimeError` (the latter also covers the
  set-changed-size-during-iteration error).  `warnings.warn` does not raise,
  so warning-only branches return normally; where a claim is about the
  warning itself (resource release), the operation additionally returns the
  Boolean "a warning was emitted" flag.
-/

set_option linter.unusedVariables false

namespace PPE

abbrev PID := Nat
abbrev SID := Nat

/-- Exception kinds that the embedded operations can raise. -/
inductive Err where
  | keyError : Err
  | typeError : Err
  | runtimeError : Err
deriving DecidableEq

/-! ## Python dict as an association list -/

/-- `d[k]` as a total function: `some v` for the first entry with key `k`. -/
def dlookup {κ α : Type} [DecidableEq κ] (k : κ) : List (κ × α) → Option α
  | [] => none
  | (k1, v) :: rest => if k = k1 then some v else dlookup k rest

/-- `d[k] = v`: replace the first entry with key `k`, or append a new entry. -/
def dinsert {κ α : Type} [DecidableEq κ] (k : κ) (v : α) : List (κ × α) → List (κ × α)
  | [] => [(k, v)]
  | (k1, v1) :: rest => if k = k1 then (k, v) :: rest else (k1, v1) :: dinsert k v rest

/-- `del d[k]`: drop the first entry with key `k` (no-op when absent). -/
def derase {κ α : Type} [DecidableEq κ] (k : κ) : List (κ × α) → List (κ × α)
  | [] => []
  | (k1, v1) :: rest => if k = k1 then rest else (k1, v1) :: derase k rest

/-- The key list of a dict. -/
def dkeys {κ α : Type} (d : List (κ × α)) : List κ := d.map Prod.fst

/-- `k in d`. -/
def dmem {κ α : Type} [DecidableEq κ] (k : κ) (d : List (κ × α)) : Bool :=
  (dlookup k d).isSome

/-- Iteration order of a Python set of integers (the order is unspecified in
Python; the model fixes the ascending one, and no claim depends on it). -/
def setList (s : Finset Nat) : List Nat := s.sort (· ≤ ·)

/-! ## src/ppe/state.py : ResourceState (lines 50-91) -/

/-- `state.ResourceState`: capacities and holder sets for beds and
ventilators. -/
structure ResourceState where
  beds : Int
  ventilators : Int
  bed_patients : Finset PID
  vent_patients : Finset PID
deriving DecidableEq

namespace ResourceState

/-- `ResourceState.bed_available` (state.py line 69-70). -/
def bed_available (r : ResourceState) : Bool :=
  decide (0 < r.beds - (r.bed_patients.card : Int))

/-- `ResourceState.vent_available` (state.py line 72-73). -/
def vent_available (r : ResourceState) : Bool :=
  decide (0 < r.ventilators - (r.vent_patients.card : Int))

/-- `ResourceState.assign_bed` (state.py line 75-76): unconditional add. -/
def assign_bed (r : ResourceState) (pid : PID) : ResourceState :=
  { r with bed_patients := insert pid r.bed_patients }

/-- `ResourceState.assign_vent` (state.py line 78-79): unconditional add. -/
def assign_vent (r : ResourceState) (pid : PID) : ResourceState :=
  { r with vent_patients := insert pid r.vent_patients }

/-- `ResourceState.remove_bed` (state.py lines 81-85).  Returns the new state
and whether the warning ("Attempted to remove patient from a bed that was not
in a bed") was emitted. -/
def remove_bed (r : ResourceState) (pid : PID) (warn : Bool) : ResourceState × Bool :=
  if pid ∈ r.bed_patients then
    ({ r with bed_patients := r.bed_patients.erase pid }, false)
  else
    (r, warn)

/-- `ResourceState.remove_vent` (state.py lines 87-91), with the warning flag
as for `remove_bed`. -/
def remove_vent (r : ResourceState) (pid : PID) (warn : Bool) : ResourceState × Bool :=
  if pid ∈ r.vent_patients then
    ({ r with vent_patients := r.vent_patients.erase pid }, false)
  else
    (r, warn)

end ResourceState

/-! ## src/ppe/dynamics.py : admission criteria and PatientHandler -/

/-- `state.PStatusImpl`: the patient status used by the dynamics module, a
single ventilator-requirement flag. -/
structure PStatusImpl where
  require_vent : Bool
deriving DecidableEq

/-- `BedAndVentilatorCriteria.decide_admit` (dynamics.py lines 30-35):
admit iff a bed is free and (no ventilator needed or a ventilator is free). -/
def BedAndVentilatorCriteria.decideAdmission (resource_state : ResourceState)
    (patientstatus : PStatusImpl) : Bool :=
  resource_state.bed_available &&
    (!patientstatus.require_vent || resource_state.vent_available)

/-- The effect of `PatientHandler.handle_admit` (dynamics.py lines 66-71) on
the resource state: it calls `assign_bed(pid)` and then — unconditionally,
whether or not the patient requires a ventilator — `assign_vent(pid)`.
(The length-of-stay draw and the scheduling of the discharge event do not
touch the resource state and are elided here.) -/
def PatientHandler.admissionResources (r : ResourceState) (pid : PID) : ResourceState :=
  (r.assign_bed pid).assign_vent pid

/-! ## src/ppe/state.py : StaffForceStatus (lines 94-265) -/

/-- `state.ShiftType` (the members declared in state.py lines 94-97). -/
inductive ShiftType where
  | Day : ShiftType
  | Night : ShiftType
deriving DecidableEq

/-- `state.StaffAssignment = Dict[ShiftType, Optional[StaffID]]`, with one
slot per shift type. -/
structure StaffAssignment where
  day : Option SID
  night : Option SID
deriving DecidableEq

/-- `assignment[shift_type]`. -/
def StaffAssignment.get : StaffAssignment → ShiftType → Option SID
  | a, .Day => a.day
  | a, .Night => a.night

/-- `assignment[shift_type] = v`. -/
def StaffAssignment.set : StaffAssignment → ShiftType → Option SID → StaffAssignment
  | a, .Day, v => { a with day := v }
  | a, .Night, v => { a with night := v }

/-- `state.StaffForceStatus`: the staff lifecycle bookkeeping.  A staff id is
ACTIVE when it is a key of `staff_to_patient`, AVAILABLE when it is in
`available_staff`, UNAVAILABLE when it is in `unavailable_staff`. -/
structure StaffForceStatus where
  patient_to_staff : List (PID × StaffAssignment)
  staff_to_patient : List (SID × Finset PID)
  shift_to_staff : List (ShiftType × Finset SID)
  staff_to_shift : List (SID × ShiftType)
  staff_to_eos : List (SID × Int)
  available_staff : Finset SID
  unavailable_staff : Finset SID
  staff_to_last_on : List (SID × Int)
deriving DecidableEq

namespace StaffForceStatus

/-- `StaffForceStatus.unassign` (state.py lines 140-151).  Indexing
`_staff_to_patient[sid]`, `_staff_to_shift[sid]` or `_patient_to_staff[pid]`
on a missing key raises `KeyError`; the warning-only branches return
normally. -/
def unassign (st : StaffForceStatus) (pid : PID) (sid : SID) (warn : Bool) :
    Except Err StaffForceStatus :=
  match dlookup sid st.staff_to_patient with
  | none => .error .keyError
  | some ps =>
    let st1 := if pid ∈ ps then
        { st with staff_to_patient := dinsert sid (ps.erase pid) st.staff_to_patient }
      else st
    match dlookup sid st1.staff_to_shift with
    | none => .error .keyError
    | some shift_type =>
      match dlookup pid st1.patient_to_staff with
      | none => .error .keyError
      | some assignment =>
        if assignment.get shift_type = some sid then
          .ok { st1 with patient_to_staff :=
                  dinsert pid (assignment.set shift_type none) st1.patient_to_staff }
        else .ok st1

/-- The record-and-mark tail of `make_unavailable` (state.py lines 216-217):
`_staff_to_last_on[sid] = time; _unavailable_staff.add(sid)`. -/
def markUnavailable (st : StaffForceStatus) (sid : SID) (time : Int) : StaffForceStatus :=
  { st with staff_to_last_on := dinsert sid time st.staff_to_last_on,
            unavailable_staff := insert sid st.unavailable_staff }

/-- The `for pid in patients: self.unassign(...)` loop of `make_unavailable`
(state.py lines 200-202), where `patients = self.get_patients(sid)` is the
dict value itself, not a copy (state.py line 166).  A CPython set iterator
compares, at every `next()` call (including the final one that would report
exhaustion), the current size of the set with the size at iterator creation and
raises `RuntimeError` on a mismatch; `orig` is that creation-time size. -/
def iterUnassign (sid : SID) (warn : Bool) (orig : Nat) :
    List PID → StaffForceStatus → Except Err StaffForceStatus
  | snapshot, st =>
    if ((dlookup sid st.staff_to_patient).getD ∅).card ≠ orig then .error .runtimeError
    else
      match snapshot with
      | [] => .ok st
      | p :: rest =>
        match st.unassign p sid warn with
        | .error e => .error e
        | .ok st1 => iterUnassign sid warn orig rest st1

/-- `StaffForceStatus.make_unavailable` (state.py lines 198-217).  In the
active branch the code iterates the live patient set while `unassign`
shrinks it, removes the dict entries (raising `KeyError` when
`_shift_to_staff[shift]` or a `del` target is missing, as the dict/`set.remove`
operations do), in the available branch it silently removes the staff from
the available set, and in all non-raising paths it finally records
`_staff_to_last_on[sid] = time` and adds the staff to `_unavailable_staff`. -/
def make_unavailable (st : StaffForceStatus) (sid : SID) (time : Int) (warn : Bool) :
    Except Err StaffForceStatus :=
  match dlookup sid st.staff_to_patient with
  | some ps =>
    match iterUnassign sid warn ps.card (setList ps) st with
    | .error e => .error e
    | .ok st1 =>
      let st2 := { st1 with staff_to_patient := derase sid st1.staff_to_patient }
      match dlookup sid st2.staff_to_shift with
      | none => .error .keyError
      | some shift =>
        match dlookup shift st2.shift_to_staff with
        | none => .error .keyError
        | some staffset =>
          if sid ∈ staffset then
            let st3 := { st2 with shift_to_staff :=
                           dinsert shift (staffset.erase sid) st2.shift_to_staff }
            match dlookup sid st3.staff_to_eos with
            | none => .error .keyError
            | some _ =>
              .ok (markUnavailable
                    { st3 with staff_to_shift := derase sid st3.staff_to_shift,
                               staff_to_eos := derase sid st3.staff_to_eos } sid time)
          else .error .keyError
  | none =>
    if sid ∈ st.available_staff then
      .ok (markUnavailable { st with available_staff := st.available_staff.erase sid } sid time)
    else
      .ok (markUnavailable st sid time)

/-- `StaffForceStatus.make_available` (state.py lines 219-224): adds the
staff to the available set when it is unavailable (warning otherwise), and —
as written — never removes it from the unavailable set. -/
def make_available (st : StaffForceStatus) (sid : SID) (warn : Bool) : StaffForceStatus :=
  if sid ∈ st.unavailable_staff then
    { st with available_staff := insert sid st.available_staff }
  else st

/-- `StaffForceStatus.start_shift` (state.py lines 226-236).  When the staff
is available it is first removed from the available set; the subsequent
`self._shift_to_staff[shift_type].add(sid)` indexes `_shift_to_staff`, which
raises `KeyError` when `shift_type` is not among its keys (the constructor
initialises it to the empty dict and no code path ever adds a key).  When the
staff is not available the call only warns. -/
def start_shift (st : StaffForceStatus) (sid : SID) (shift_type : ShiftType)
    (eos : Int) (warn : Bool) : Except Err StaffForceStatus :=
  if sid ∈ st.available_staff then
    let st1 := { st with available_staff := st.available_staff.erase sid }
    match dlookup shift_type st1.shift_to_staff with
    | none => .error .keyError
    | some s =>
      .ok { st1 with shift_to_staff := dinsert shift_type (insert sid s) st1.shift_to_staff,
                     staff_to_shift := dinsert sid shift_type st1.staff_to_shift,
                     staff_to_patient := dinsert sid ∅ st1.staff_to_patient,
                     staff_to_eos := dinsert sid eos st1.staff_to_eos }
  else .ok st

end StaffForceStatus

/-! ## src/ppe/framework.py : value types -/

/-- `framework.InfectionSeverity`. -/
inductive InfectionSeverity where
  | NOT_INFECTED | INCUBATING | NONASYMPTOMATIC | MODERATE | SEVERE | REQ_VENT
deriving DecidableEq

/-- `framework.Outcome`. -/
inductive Outcome where
  | DIES : Outcome
  | LIVES : Outcome
deriving DecidableEq

/-- `framework.PPE`. -/
inductive PPEKind where
  | NO_PPE : PPEKind
  | FULL_PPE : PPEKind
deriving DecidableEq

/-- `framework.PatientStatus` (the severity field; the infection/test status
fields are carried along unmodified by every embedded operation and are
elided). -/
structure PatientStatus where
  covid_severity : Option InfectionSeverity
deriving DecidableEq

/-- `framework.PatientArrival`. -/
structure PatientArrival where
  arrival_time : Int
  patient : PID
  status : PatientStatus
deriving DecidableEq

/-- `framework.StaffStatus` (the `last_shift_end` field; the infection/test
fields are carried along unmodified by every embedded operation and are
elided). -/
structure StaffStatus where
  last_shift_end : Int
deriving DecidableEq

/-- `StaffStatus.set_last_shift_end` (framework.py lines 80-82). -/
def StaffStatus.set_last_shift_end (st : StaffStatus) (value : Int) : StaffStatus :=
  { st with last_shift_end := value }

/-- `framework.StaffOptions`. -/
structure StaffOptions where
  ppe : Option PPEKind
  shift_end : Int
deriving DecidableEq

/-- `implement.PPEStock`. -/
structure PPEStock where
  ppe_level : Int
deriving DecidableEq

/-- `framework.ArrivalAssignment` (all fields default to `None` in the
source; constructors below pass every field explicitly). -/
structure ArrivalAssignment where
  staff : Option (Finset SID)
  given_bed : Option Bool
  given_ventilator : Option Bool
deriving DecidableEq

/-- `framework.EOSReassignment`.  The `new_assignments` dict is keyed by
patient; `LeastBusyPolicy` stores a single staff id per patient. -/
structure EOSReassignment where
  added_staff : List (SID × StaffOptions)
  new_assignments : List (PID × SID)
deriving DecidableEq

/-! ## src/ppe/implement.py : HospitalStateImpl (lines 120-296) -/

/-- `implement.HospitalStateImpl`.  The `Optional` constructor arguments
are modelled in their populated form (the `None` defaults make the very same
operations raise `TypeError` before touching any state). -/
structure HospitalStateImpl where
  ppe_level : Option PPEStock
  patients : List (PID × PatientStatus)
  prev_patients : Finset PID
  bedusers : Finset PID
  ventusers : Finset PID
  inactive_staff : List (SID × StaffStatus)
  active_staff : List (SID × StaffStatus)
  active_staff_options : List (SID × StaffOptions)
  staff_assignments : List (SID × Finset PID)
  patient_assignments : List (PID × Finset SID)
deriving DecidableEq

namespace HospitalStateImpl

/-- `HospitalStateImpl.get_patients` (implement.py lines 208-211): a copy of
the assigned set, empty when the staff has no entry. -/
def get_patients (h : HospitalStateImpl) (staff : SID) : Finset PID :=
  (dlookup staff h.staff_assignments).getD ∅

/-- `HospitalStateImpl.get_staff` (implement.py lines 213-216). -/
def get_staff (h : HospitalStateImpl) (patient : PID) : Finset SID :=
  (dlookup patient h.patient_assignments).getD ∅

/-- `HospitalStateImpl.unassign` (implement.py lines 218-227): removes the
edge on both sides; a missing key or missing element raises `KeyError`,
re-raised as `RuntimeError`.  (In the source the staff-side removal persists
even when the patient-side one then raises; since the exception is fatal the
post-exception state is unobservable and the error branch carries no state.) -/
def unassign (h : HospitalStateImpl) (staff : SID) (patient : PID) :
    Except Err HospitalStateImpl :=
  match dlookup staff h.staff_assignments with
  | none => .error .runtimeError
  | some ps =>
    if patient ∈ ps then
      match dlookup patient h.patient_assignments with
      | none => .error .runtimeError
      | some ss =>
        if staff ∈ ss then
          .ok { h with
                staff_assignments := dinsert staff (ps.erase patient) h.staff_assignments,
                patient_assignments := dinsert patient (ss.erase staff) h.patient_assignments }
        else .error .runtimeError
    else .error .runtimeError

/-- `if k not in dict: dict[k] = set()` (implement.py lines 237-238 and
240-241). -/
def ensureKey {κ : Type} [DecidableEq κ] (k : κ) (d : List (κ × Finset Nat)) :
    List (κ × Finset Nat) :=
  if dmem k d then d else dinsert k ∅ d

/-- `dict[k].add(x)` (implement.py lines 243-244). -/
def addTo {κ : Type} [DecidableEq κ] (k : κ) (x : Nat) (d : List (κ × Finset Nat)) :
    List (κ × Finset Nat) :=
  dinsert k (insert x ((dlookup k d).getD ∅)) d

/-- `HospitalStateImpl.assign` (implement.py lines 236-245): creates empty
entries for missing keys, then adds the edge on both sides. -/
def assign (h : HospitalStateImpl) (staff : SID) (patient : PID) : HospitalStateImpl :=
  { h with
    staff_assignments := addTo staff patient (ensureKey staff h.staff_assignments),
    patient_assignments := addTo patient staff (ensureKey patient h.patient_assignments) }

/-- The `for patient in self.get_patients(staff): self.unassign(...)` loop of
`end_shift` (implement.py lines 230-232); `get_patients` returns a copy, so
the iteration is over a fixed snapshot. -/
def unassignPatients (staff : SID) : List PID → HospitalStateImpl →
    Except Err HospitalStateImpl
  | [], h => .ok h
  | p :: rest, h =>
    match h.unassign staff p with
    | .error e => .error e
    | .ok h1 => unassignPatients staff rest h1

/-- `HospitalStateImpl.end_shift` (implement.py lines 229-234): unassigns
every patient of the staff, then moves the staff record from `_active_staff`
to `_inactive_staff` with `last_shift_end` set (a missing `_active_staff`
entry raises `KeyError`). -/
def end_shift (h : HospitalStateImpl) (staff : SID) (end_time : Int) :
    Except Err HospitalStateImpl :=
  match (if dmem staff h.staff_assignments then
           unassignPatients staff (setList (h.get_patients staff)) h
         else .ok h) with
  | .error e => .error e
  | .ok h1 =>
    match dlookup staff h1.active_staff with
    | none => .error .keyError
    | some stat =>
      .ok { h1 with
            inactive_staff := dinsert staff (stat.set_last_shift_end end_time) h1.inactive_staff,
            active_staff := derase staff h1.active_staff }

/-- `HospitalStateImpl.free_bed` (implement.py lines 275-280): removal with
`except KeyError: pass`, a total no-op when absent. -/
def free_bed (h : HospitalStateImpl) (patient : PID) : HospitalStateImpl :=
  { h with bedusers := h.bedusers.erase patient }

/-- `HospitalStateImpl.take_off_ventilator` (implement.py lines 282-287). -/
def take_off_ventilator (h : HospitalStateImpl) (patient : PID) : HospitalStateImpl :=
  { h with ventusers := h.ventusers.erase patient }

/-- The `for staff in self.get_staff(patient): self.unassign(...)` loop of
`discharge_patient` (implement.py lines 197-198); `get_staff` returns a
copy. -/
def unassignStaffOf (patient : PID) : List SID → HospitalStateImpl →
    Except Err HospitalStateImpl
  | [], h => .ok h
  | s :: rest, h =>
    match h.unassign s patient with
    | .error e => .error e
    | .ok h1 => unassignStaffOf patient rest h1

/-- `HospitalStateImpl.discharge_patient` (implement.py lines 194-206):
deletes the patient record, tears down its assignment edges, deletes its
`_patient_assignments` entry, frees the bed and the ventilator; a patient
that is not in `_patients` raises `RuntimeError`. -/
def discharge_patient (h : HospitalStateImpl) (patient : PID) :
    Except Err HospitalStateImpl :=
  if dmem patient h.patients then
    match unassignStaffOf patient (setList (h.get_staff patient))
            { h with patients := derase patient h.patients } with
    | .error e => .error e
    | .ok h2 =>
      if dmem patient h2.patient_assignments then
        .ok ((HospitalStateImpl.free_bed
                { h2 with patient_assignments := derase patient h2.patient_assignments }
                patient).take_off_ventilator patient)
      else
        .ok ((h2.free_bed patient).take_off_ventilator patient)
  else .error .runtimeError

/-- `HospitalStateImpl.has_exited` (implement.py lines 289-290). -/
def has_exited (h : HospitalStateImpl) (patient : PID) : Bool :=
  patient ∈ h.prev_patients

/-- `HospitalStateImpl.num_vented` (implement.py lines 292-293). -/
def num_vented (h : HospitalStateImpl) : Nat := h.ventusers.card

/-- `HospitalStateImpl.num_beds_used` (implement.py lines 295-296). -/
def num_beds_used (h : HospitalStateImpl) : Nat := h.bedusers.card

/-- `HospitalStateImpl.num_patients` (implement.py lines 253-254):
`len(self._staff_assignments[staff])`, `KeyError` when absent. -/
def num_patients (h : HospitalStateImpl) (staff : SID) : Option Nat :=
  (dlookup staff h.staff_assignments).map Finset.card

/-- `HospitalStateImpl.most_rested` (implement.py lines 261-264):
`min(self._inactive_staff, key=self.get_last_shift_end)` over the inactive
dict, `None` when it is empty.  the Python `min` keeps the first of equally
small keys. -/
def most_rested (h : HospitalStateImpl) : Option SID :=
  match h.inactive_staff with
  | [] => none
  | e :: rest =>
    some (rest.foldl (fun b x => if x.2.last_shift_end < b.2.last_shift_end then x else b) e).1

end HospitalStateImpl

/-- `framework.handle_patient_exit` (framework.py lines 243-251), state
effect: when the patient has not exited, the outcome is logged and the
patient discharged; otherwise nothing happens.  (The `yield env.timeout`
delay and the logger calls do not touch the hospital state.) -/
def handle_patient_exit (h : HospitalStateImpl) (patient : PID) (outcome : Outcome) :
    Except Err HospitalStateImpl :=
  if h.has_exited patient then .ok h
  else h.discharge_patient patient

/-! ## src/ppe/implement.py : reference policies (lines 299-349) -/

/-- `implement.FirstComeFirstServedPolicy`. -/
structure FirstComeFirstServedPolicy where
  max_beds : Nat
  max_ventilators : Nat
deriving DecidableEq

/-- `FirstComeFirstServedPolicy.arrival_assignment` (implement.py lines
340-349): decline when all beds are used, or when a ventilator is needed and
all ventilators are used; otherwise grant a bed, grant a ventilator exactly
when needed, and no staff. -/
def FirstComeFirstServedPolicy.arrival_assignment (pol : FirstComeFirstServedPolicy)
    (arrival : PatientArrival) (hospital : HospitalStateImpl) : Option ArrivalAssignment :=
  if pol.max_beds ≤ hospital.num_beds_used then none
  else
    let needs_ventilator : Bool := arrival.status.covid_severity = some .REQ_VENT
    if needs_ventilator && decide (pol.max_ventilators ≤ hospital.num_vented) then none
    else some ⟨none, some true, some needs_ventilator⟩

/-- `implement.LeastBusyPolicy`. -/
structure LeastBusyPolicy where
  max_patients : Int
  shift_length : Int
deriving DecidableEq

namespace LeastBusyPolicy

/-- The `excess_capacity` dict comprehension of `eos_restaff` (implement.py
lines 316-318): for every active staff with fewer than `max_patients`
patients, the value `num_patients(staff) - max_patients`; `num_patients`
raises `KeyError` when the staff has no `_staff_assignments` entry. -/
def buildExcess (maxp : Int) (h : HospitalStateImpl) :
    List SID → Except Err (List (SID × Int))
  | [] => .ok []
  | s :: rest =>
    match dlookup s h.staff_assignments with
    | none => .error .keyError
    | some ps =>
      match buildExcess maxp h rest with
      | .error e => .error e
      | .ok tail =>
        .ok (if (ps.card : Int) < maxp then (s, (ps.card : Int) - maxp) :: tail else tail)

/-- `max(excess_capacity.keys(), key=excess_capacity.get)`: the first entry
with the largest value (the Python `max` keeps the current best on ties). -/
def argmaxValue : List (SID × Int) → Option (SID × Int)
  | [] => none
  | e :: es => some (es.foldl (fun b x => if b.2 < x.2 then x else b) e)

/-- The `while orphaned_patients and excess_capacity` loop of `eos_restaff`
(implement.py lines 319-323): pop an orphan, record it against the staff with
the maximal `excess_capacity` value, decrement that value.  (Entries are
never removed from `excess_capacity`, so the loop runs until the orphans are
exhausted whenever the dict was initially nonempty.) -/
def spreadLoop : List PID → List (SID × Int) → List (PID × SID) → List (PID × SID)
  | [], _, acc => acc
  | p :: rest, excess, acc =>
    match argmaxValue excess with
    | none => acc
    | some e => spreadLoop rest (dinsert e.1 (e.2 - 1) excess) (dinsert p e.1 acc)

/-- `LeastBusyPolicy.eos_restaff` (implement.py lines 311-333).  With no
rested staff the orphans are spread via `spreadLoop`; otherwise the most
rested staff member is brought onto a new shift (with PPE when stock remains)
and receives every orphan. -/
def eos_restaff (pol : LeastBusyPolicy) (time : Int) (orphaned_patients : List PID)
    (hospital : HospitalStateImpl) : Except Err EOSReassignment :=
  match hospital.most_rested with
  | none =>
    match buildExcess pol.max_patients hospital (dkeys hospital.active_staff) with
    | .error e => .error e
    | .ok excess =>
      .ok ⟨[], spreadLoop orphaned_patients excess []⟩
  | some mr =>
    match hospital.ppe_level with
    | none => .error .typeError
    | some stock =>
      let staff_ppe := if 0 < stock.ppe_level then PPEKind.FULL_PPE else PPEKind.NO_PPE
      .ok ⟨[(mr, ⟨some staff_ppe, time + pol.shift_length⟩)],
           orphaned_patients.map (fun p => (p, mr))⟩

end LeastBusyPolicy

/-! ## The discrete-event scheduling kernel (spec §§2-4.1) -/

/-- Modelled from the spec: the `Simulation` scheduling kernel used by
`src/ppe/dynamics.py` (`sim.schedule_event` / `sim.trigger_event` / `run`) is
not under `src/` — only its callers are — so the event and queue model follow
spec §3 ("Event: {time, sequence_id, kind, payload}; total order = (time asc,
sequence_id asc)").  `kind` stands for the event kind and payload; it plays
no role in the ordering. -/
structure SimEvent where
  time : Nat
  seq : Nat
  kind : Nat
deriving DecidableEq

/-- The (time asc, sequence_id asc) priority order on events (spec §3). -/
def SimEvent.lexLe (a b : SimEvent) : Bool :=
  decide (a.time < b.time) || (decide (a.time = b.time) && decide (a.seq ≤ b.seq))

/-- Modelled from the spec: popping the minimal (time, sequence_id) event
from the queue (spec §4.1 "repeatedly pops the minimal (time, sequence_id)
event"), returning it together with the remaining queue. -/
def popMin : List SimEvent → Option (SimEvent × List SimEvent)
  | [] => none
  | e :: es =>
    match popMin es with
    | none => some (e, [])
    | some (m, rest) => if e.lexLe m then some (e, es) else some (m, e :: rest)

/-- Modelled from the spec: the dispatch loop of `run(max_time)` (spec §4.1):
pop the minimal event; stop when the queue is empty or the time of the event
exceeds `max_time`; otherwise dispatch it and continue.  The returned list is
the dispatch sequence; `fuel` bounds the recursion and `run` supplies the
queue length, which is exact since each step consumes one event. -/
def runGo : Nat → Nat → List SimEvent → List SimEvent
  | 0, _, _ => []
  | fuel + 1, max_time, q =>
    match popMin q with
    | none => []
    | some (e, rest) =>
      if max_time < e.time then []
      else e :: runGo fuel max_time rest

/-- Modelled from the spec: `run(max_time)` on a queue of scheduled events,
returning the dispatch sequence. -/
def run (max_time : Nat) (q : List SimEvent) : List SimEvent :=
  runGo q.length max_time q

/-- The staff↔patient graph is symmetric: `p ∈ staff_to_patients(s)` iff
`s ∈ patient_to_staff(p)` (spec §3, invariant 3), with a missing key read as
the empty set, exactly as `get_patients`/`get_staff` do. -/
def Mirrors (sa : List (SID × Finset PID)) (pa : List (PID × Finset SID)) : Prop :=
  ∀ s p, p ∈ (dlookup s sa).getD ∅ ↔ s ∈ (dlookup p pa).getD ∅

/-- Python dicts have unique keys; the assignment dicts of a
`HospitalStateImpl` do as well. -/
def GoodKeys (h : HospitalStateImpl) : Prop :=
  (dkeys h.staff_assignments).Nodup ∧ (dkeys h.patient_assignments).Nodup

/-! ## Concrete states used as evidence -/

/-- A hospital with the single symmetric assignment staff 3 ↔ patient 4. -/
def hospC2 : HospitalStateImpl := ⟨none, [], ∅, ∅, ∅, [], [], [], [(3, {4})], [(4, {3})]⟩

/-- A staff force where staff 0 is UNAVAILABLE (and in no other state). -/
def sfsC3 : StaffForceStatus := ⟨[], [], [], [], [], ∅, {0}, []⟩

/-- A staff force where staff 1 is AVAILABLE (and in no other state). -/
def sfsC3b : StaffForceStatus := ⟨[], [], [], [], [], {1}, ∅, []⟩

/-- Capacity two of each resource, patient 1 holding a bed and no
ventilator. -/
def rC6 : ResourceState := ⟨2, 2, {1}, ∅⟩

/-- A staff force where staff 0 is ACTIVE on the day shift with the single
assigned patient 1 (recorded symmetrically). -/
def sfsC7 : StaffForceStatus :=
  ⟨[(1, ⟨some 0, none⟩)], [(0, {1})], [], [(0, ShiftType.Day)], [], ∅, ∅, []⟩

/-- No rested staff; active staff 10 with no patients and active staff 20
with one patient. -/
def hospC8 : HospitalStateImpl :=
  ⟨some ⟨5⟩, [], ∅, ∅, ∅, [], [(10, ⟨0⟩), (20, ⟨0⟩)], [], [(10, ∅), (20, {1})], []⟩

/-- A LeastBusy policy with a cap of two patients per staff. -/
def polC8 : LeastBusyPolicy := ⟨2, 12⟩

/-- A hospital holding the single admitted patient 0, who occupies a bed. -/
def hospC9pre : HospitalStateImpl :=
  ⟨none, [(0, ⟨some InfectionSeverity.MODERATE⟩)], ∅, {0}, ∅, [], [], [], [], []⟩

/-- The hospital after the discharge of patient 0: the patient record and the bed
are gone, and `_prev_patients` is still empty because `discharge_patient`
never adds to it. -/
def hospC9post : HospitalStateImpl := ⟨none, [], ∅, ∅, ∅, [], [], [], [], []⟩

/-- A staff force where staff 9 is ACTIVE on the day shift with the single
assigned patient 2 (recorded symmetrically). -/
def sfsC10 : StaffForceStatus :=
  ⟨[(2, ⟨some 9, none⟩)], [(9, {2})], [], [(9, ShiftType.Day)], [], ∅, ∅, []⟩

/-- The three scheduled events of the C5 witness: seq ids are allocation
order; two of them share timestamp 1. -/
def eventsC5 : List SimEvent := [⟨3, 0, 0⟩, ⟨1, 1, 0⟩, ⟨1, 2, 0⟩]

/-! ## Lemmas -/

theorem mem_setList {s : Finset Nat} {a : Nat} : a ∈ setList s ↔ a ∈ s :=
  Finset.mem_sort _

theorem setList_ne_nil {s : Finset Nat} (h : s.Nonempty) : setList s ≠ [] := by
  intro hnil
  rcases h with ⟨a, ha⟩
  have : a ∈ setList s := mem_setList.2 ha
  simp [hnil] at this

theorem dlookup_dinsert_self {κ α : Type} [DecidableEq κ] (k : κ) (v : α)
    (d : List (κ × α)) : dlookup k (dinsert k v d) = some v := by
  induction d with
  | nil => simp [dinsert, dlookup]
  | cons e rest ih =>
    by_cases h : k = e.1 <;> simp [dinsert, dlookup, h, ih]

theorem dlookup_dinsert_ne {κ α : Type} [DecidableEq κ] {k k1 : κ} (v : α)
    (d : List (κ × α)) (hne : k1 ≠ k) :
    dlookup k1 (dinsert k v d) = dlookup k1 d := by
  induction d with
  | nil => simp [dinsert, dlookup, hne]
  | cons e rest ih =>
    by_cases h : k = e.1
    · subst h
      simp [dinsert, dlookup, hne]
    · by_cases h1 : k1 = e.1 <;> simp [dinsert, dlookup, h, h1, ih]

theorem dlookup_derase_ne {κ α : Type} [DecidableEq κ] {k k1 : κ}
    (d : List (κ × α)) (hne : k1 ≠ k) :
    dlookup k1 (derase k d) = dlookup k1 d := by
  induction d with
  | nil => simp [derase]
  | cons e rest ih =>
    by_cases h : k = e.1
    · subst h
      simp [derase, dlookup, hne]
    · by_cases h1 : k1 = e.1 <;> simp [derase, dlookup, h, h1, ih]

theorem dkeys_cons {κ α : Type} (e : κ × α) (rest : List (κ × α)) :
    dkeys (e :: rest) = e.1 :: dkeys rest := rfl

theorem mem_dkeys_iff_isSome {κ α : Type} [DecidableEq κ] (k : κ)
    (d : List (κ × α)) : k ∈ dkeys d ↔ (dlookup k d).isSome := by
  induction d with
  | nil => simp [dkeys, dlookup]
  | cons e rest ih =>
    rw [dkeys_cons, List.mem_cons, dlookup]
    by_cases h : k = e.1 <;> simp [h, ih]

theorem dlookup_derase_self {κ α : Type} [DecidableEq κ] (k : κ)
    (d : List (κ × α)) (hnd : (dkeys d).Nodup) :
    dlookup k (derase k d) = none := by
  induction d with
  | nil => simp [derase, dlookup]
  | cons e rest ih =>
    rw [dkeys_cons, List.nodup_cons] at hnd
    by_cases h : k = e.1
    · subst h
      have hnone : dlookup e.1 rest = none := by
        cases hl : dlookup e.1 rest with
        | none => rfl
        | some v =>
          exact absurd ((mem_dkeys_iff_isSome e.1 rest).2 (by simp [hl])) hnd.1
      simpa [derase] using hnone
    · simp [derase, dlookup, h, ih hnd.2]

theorem mem_dkeys_dinsert {κ α : Type} [DecidableEq κ] (a k : κ) (v : α)
    (d : List (κ × α)) : a ∈ dkeys (dinsert k v d) ↔ a = k ∨ a ∈ dkeys d := by
  induction d with
  | nil => simp [dinsert, dkeys]
  | cons e rest ih =>
    by_cases h : k = e.1
    · subst h
      rw [dinsert]
      simp [dkeys_cons]
    · rw [dinsert]
      simp only [h, if_false, dkeys_cons, List.mem_cons, ih]
      tauto

theorem dkeys_dinsert_nodup {κ α : Type} [DecidableEq κ] (k : κ) (v : α)
    (d : List (κ × α)) (hnd : (dkeys d).Nodup) :
    (dkeys (dinsert k v d)).Nodup := by
  induction d with
  | nil => simp [dinsert, dkeys]
  | cons e rest ih =>
    rw [dkeys_cons, List.nodup_cons] at hnd
    by_cases h : k = e.1
    · subst h
      rw [dinsert]
      simp only [if_true, dkeys_cons, List.nodup_cons]
      exact hnd
    · rw [dinsert]
      simp only [h, if_false, dkeys_cons, List.nodup_cons]
      refine ⟨?_, ih hnd.2⟩
      intro hmem
      rcases (mem_dkeys_dinsert e.1 k v rest).1 hmem with h1 | h1
      · exact h h1.symm
      · exact hnd.1 h1

theorem mem_dkeys_derase {κ α : Type} [DecidableEq κ] (a k : κ)
    (d : List (κ × α)) : a ∈ dkeys (derase k d) → a ∈ dkeys d := by
  induction d with
  | nil => simp [derase]
  | cons e rest ih =>
    by_cases h : k = e.1
    · subst h
      rw [derase]
      simp [dkeys_cons]
      tauto
    · rw [derase]
      simp only [h, if_false, dkeys_cons, List.mem_cons]
      tauto

theorem dkeys_derase_nodup {κ α : Type} [DecidableEq κ] (k : κ)
    (d : List (κ × α)) (hnd : (dkeys d).Nodup) :
    (dkeys (derase k d)).Nodup := by
  induction d with
  | nil => simpa [derase] using hnd
  | cons e rest ih =>
    rw [dkeys_cons, List.nodup_cons] at hnd
    by_cases h : k = e.1
    · subst h
      rw [derase]
      simpa using hnd.2
    · rw [derase]
      simp only [h, if_false, dkeys_cons, List.nodup_cons]
      exact ⟨fun hmem => hnd.1 (mem_dkeys_derase e.1 k rest hmem), ih hnd.2⟩

theorem popMin_eq_none {l : List SimEvent} : popMin l = none ↔ l = [] := by
  cases l with
  | nil => simp [popMin]
  | cons e es =>
    simp only [popMin]
    rcases h : popMin es with _ | ⟨m, rest⟩
    · simp
    · by_cases hle : e.lexLe m <;> simp [hle]

theorem popMin_perm {l : List SimEvent} {m : SimEvent} {rest : List SimEvent}
    (h : popMin l = some (m, rest)) : (m :: rest).Perm l := by
  induction l generalizing m rest with
  | nil => simp [popMin] at h
  | cons e es ih =>
    simp only [popMin] at h
    rcases h1 : popMin es with _ | ⟨m1, rest1⟩
    · rw [h1] at h
      have hes : es = [] := popMin_eq_none.1 h1
      simp at h
      subst hes
      simp [h.1, h.2]
    · rw [h1] at h
      by_cases hle : e.lexLe m1
      · simp [hle] at h
        rw [h.1, h.2]
      · simp [hle] at h
        rw [← h.1, ← h.2]
        exact (List.Perm.swap e m1 rest1).trans ((ih h1).cons e)

theorem lexLe_total (a b : SimEvent) : a.lexLe b || b.lexLe a := by
  simp only [SimEvent.lexLe]
  by_cases h1 : a.time < b.time <;> by_cases h2 : b.time < a.time <;>
    by_cases h3 : a.time = b.time <;> by_cases h4 : a.seq ≤ b.seq <;>
      simp [h1, h2, h3, h4] <;> omega

theorem lexLe_trans {a b c : SimEvent} (h1 : a.lexLe b) (h2 : b.lexLe c) :
    a.lexLe c := by
  simp only [SimEvent.lexLe, Bool.or_eq_true, Bool.and_eq_true, decide_eq_true_eq] at h1 h2 ⊢
  omega

theorem popMin_min {l : List SimEvent} {m : SimEvent} {rest : List SimEvent}
    (h : popMin l = some (m, rest)) : ∀ x ∈ rest, m.lexLe x := by
  induction l generalizing m rest with
  | nil => simp [popMin] at h
  | cons e es ih =>
    simp only [popMin] at h
    rcases h1 : popMin es with _ | ⟨m1, rest1⟩
    · rw [h1] at h
      simp at h
      obtain ⟨rfl, rfl⟩ := h
      simp
    · rw [h1] at h
      by_cases hle : e.lexLe m1
      · simp [hle] at h
        rw [← h.1, ← h.2]
        intro x hx
        have hx1 : x ∈ m1 :: rest1 := (popMin_perm h1).mem_iff.2 hx
        rcases List.mem_cons.1 hx1 with rfl | hx2
        · exact hle
        · exact lexLe_trans hle (ih h1 x hx2)
      · simp [hle] at h
        rw [← h.1, ← h.2]
        intro x hx
        rcases List.mem_cons.1 hx with h4 | hx2
        · rw [h4]
          have htot : e.lexLe m1 = true ∨ m1.lexLe e = true := by
            simpa using lexLe_total e m1
          rcases htot with h3 | h3
          · exact absurd h3 (by simpa using hle)
          · exact h3
        · exact ih h1 x hx2

theorem mem_runGo {fuel max_time : Nat} {q : List SimEvent} :
    ∀ x ∈ runGo fuel max_time q, x ∈ q := by
  induction fuel generalizing q with
  | zero => simp [runGo]
  | succ n ih =>
    intro x hx
    simp only [runGo] at hx
    rcases h : popMin q with _ | ⟨e, rest⟩
    · rw [h] at hx; simp at hx
    · rw [h] at hx
      by_cases ht : max_time < e.time
      · simp [ht] at hx
      · simp [ht] at hx
        rcases hx with rfl | hx2
        · exact (popMin_perm h).mem_iff.1 (List.mem_cons_self _ _)
        · exact (popMin_perm h).mem_iff.1 (List.mem_cons_of_mem _ (ih x hx2))

theorem runGo_pairwise (fuel max_time : Nat) (q : List SimEvent) :
    (runGo fuel max_time q).Pairwise (fun a b => a.lexLe b) := by
  induction fuel generalizing q with
  | zero => simp [runGo]
  | succ n ih =>
    simp only [runGo]
    rcases h : popMin q with _ | ⟨e, rest⟩
    · simp
    · by_cases ht : max_time < e.time
      · simp [ht]
      · simp only [ht, if_false]
        refine List.pairwise_cons.2 ⟨?_, ih rest⟩
        intro x hx
        exact popMin_min h x (mem_runGo x hx)

theorem unassign_ok_shape {h h2 : HospitalStateImpl} {s : SID} {p : PID}
    (hok : h.unassign s p = .ok h2) :
    ∃ ps ss, dlookup s h.staff_assignments = some ps ∧ p ∈ ps ∧
      dlookup p h.patient_assignments = some ss ∧ s ∈ ss ∧
      h2 = { h with
             staff_assignments := dinsert s (ps.erase p) h.staff_assignments,
             patient_assignments := dinsert p (ss.erase s) h.patient_assignments } := by
  unfold HospitalStateImpl.unassign at hok
  split at hok
  · exact absurd hok (by simp)
  · rename_i ps hsa
    split at hok
    · rename_i hp
      split at hok
      · exact absurd hok (by simp)
      · rename_i ss hpa
        split at hok
        · rename_i hs
          simp only [Except.ok.injEq] at hok
          exact ⟨ps, ss, hsa, hp, hpa, hs, hok.symm⟩
        · exact absurd hok (by simp)
    · exact absurd hok (by simp)

theorem unassign_ok_mirrors {h h2 : HospitalStateImpl} {s : SID} {p : PID}
    (hm : Mirrors h.staff_assignments h.patient_assignments)
    (hok : h.unassign s p = .ok h2) :
    Mirrors h2.staff_assignments h2.patient_assignments := by
  obtain ⟨ps, ss, hsa, hp, hpa, hs, rfl⟩ := unassign_ok_shape hok
  intro s1 p1
  show p1 ∈ (dlookup s1 (dinsert s (ps.erase p) h.staff_assignments)).getD ∅ ↔
       s1 ∈ (dlookup p1 (dinsert p (ss.erase s) h.patient_assignments)).getD ∅
  by_cases hs1 : s1 = s <;> by_cases hp1 : p1 = p
  · rw [hs1, hp1, dlookup_dinsert_self, dlookup_dinsert_self]
    simp [Finset.not_mem_erase]
  · rw [hs1, dlookup_dinsert_self, dlookup_dinsert_ne _ _ hp1]
    have hm1 := hm s p1
    rw [hsa] at hm1
    simp only [Option.getD_some] at hm1 ⊢
    constructor
    · intro hmem
      exact hm1.1 (Finset.mem_of_mem_erase hmem)
    · intro hmem
      exact Finset.mem_erase.2 ⟨hp1, hm1.2 hmem⟩
  · rw [hp1, dlookup_dinsert_ne _ _ hs1, dlookup_dinsert_self]
    have hm1 := hm s1 p
    rw [hpa] at hm1
    simp only [Option.getD_some] at hm1 ⊢
    constructor
    · intro hmem
      exact Finset.mem_erase.2 ⟨hs1, hm1.1 hmem⟩
    · intro hmem
      exact hm1.2 (Finset.mem_of_mem_erase hmem)
  · rw [dlookup_dinsert_ne _ _ hs1, dlookup_dinsert_ne _ _ hp1]
    exact hm s1 p1

theorem unassign_ok_goodkeys {h h2 : HospitalStateImpl} {s : SID} {p : PID}
    (hgk : GoodKeys h) (hok : h.unassign s p = .ok h2) : GoodKeys h2 := by
  obtain ⟨ps, ss, hsa, hp, hpa, hs, rfl⟩ := unassign_ok_shape hok
  exact ⟨dkeys_dinsert_nodup _ _ _ hgk.1, dkeys_dinsert_nodup _ _ _ hgk.2⟩

theorem unassign_ok_other_fields {h h2 : HospitalStateImpl} {s : SID} {p : PID}
    (hok : h.unassign s p = .ok h2) :
    h2.patients = h.patients ∧ h2.prev_patients = h.prev_patients ∧
      h2.bedusers = h.bedusers ∧ h2.ventusers = h.ventusers := by
  obtain ⟨ps, ss, hsa, hp, hpa, hs, rfl⟩ := unassign_ok_shape hok
  exact ⟨rfl, rfl, rfl, rfl⟩

theorem unassignPatients_ok_mirrors (staff : SID) :
    ∀ (l : List PID) (h h2 : HospitalStateImpl),
      Mirrors h.staff_assignments h.patient_assignments →
      HospitalStateImpl.unassignPatients staff l h = .ok h2 →
      Mirrors h2.staff_assignments h2.patient_assignments := by
  intro l
  induction l with
  | nil =>
    intro h h2 hm hok
    simp only [HospitalStateImpl.unassignPatients, Except.ok.injEq] at hok
    rw [← hok]
    exact hm
  | cons p rest ih =>
    intro h h2 hm hok
    simp only [HospitalStateImpl.unassignPatients] at hok
    rcases h1 : h.unassign staff p with e | hmid
    · rw [h1] at hok
      exact absurd hok (by simp)
    · rw [h1] at hok
      exact ih hmid h2 (unassign_ok_mirrors hm h1) hok

theorem unassignStaffOf_ok (p : PID) :
    ∀ (l : List SID) (h h2 : HospitalStateImpl),
      Mirrors h.staff_assignments h.patient_assignments →
      GoodKeys h →
      HospitalStateImpl.unassignStaffOf p l h = .ok h2 →
      Mirrors h2.staff_assignments h2.patient_assignments ∧ GoodKeys h2 ∧
        (∀ s, s ∈ (dlookup p h2.patient_assignments).getD ∅ →
          s ∈ (dlookup p h.patient_assignments).getD ∅ ∧ s ∉ l) := by
  intro l
  induction l with
  | nil =>
    intro h h2 hm hgk hok
    simp only [HospitalStateImpl.unassignStaffOf, Except.ok.injEq] at hok
    rw [← hok]
    exact ⟨hm, hgk, fun s hs => ⟨hs, by simp⟩⟩
  | cons s0 rest ih =>
    intro h h2 hm hgk hok
    simp only [HospitalStateImpl.unassignStaffOf] at hok
    rcases h1 : h.unassign s0 p with e | hmid
    · rw [h1] at hok
      exact absurd hok (by simp)
    · rw [h1] at hok
      obtain ⟨hm2, hgk2, htail⟩ :=
        ih hmid h2 (unassign_ok_mirrors hm h1) (unassign_ok_goodkeys hgk h1) hok
      refine ⟨hm2, hgk2, ?_⟩
      intro s hsmem
      obtain ⟨hin, hnotin⟩ := htail s hsmem
      obtain ⟨ps, ss, hsa, hp, hpa, hs, rfl⟩ := unassign_ok_shape h1
      have hin2 : s ∈ (dlookup p (dinsert p (ss.erase s0) h.patient_assignments)).getD ∅ := hin
      rw [dlookup_dinsert_self] at hin2
      simp only [Option.getD_some] at hin2
      rw [hpa]
      simp only [Option.getD_some]
      obtain ⟨hne, hss⟩ := Finset.mem_erase.1 hin2
      exact ⟨hss, by
        intro hcon
        rcases List.mem_cons.1 hcon with h3 | h3
        · exact hne h3
        · exact hnotin h3⟩

theorem dlookup_addTo_ensureKey {κ : Type} [DecidableEq κ] (k k1 : κ) (x : Nat)
    (d : List (κ × Finset Nat)) :
    dlookup k1 (HospitalStateImpl.addTo k x (HospitalStateImpl.ensureKey k d)) =
      if k1 = k then some (insert x ((dlookup k d).getD ∅)) else dlookup k1 d := by
  unfold HospitalStateImpl.addTo HospitalStateImpl.ensureKey dmem
  cases hk : dlookup k d with
  | none =>
    simp only [hk, Option.isSome_none, Bool.false_eq_true, if_false, Option.getD_none]
    by_cases h1 : k1 = k
    · rw [h1, dlookup_dinsert_self, dlookup_dinsert_self, if_pos rfl]
      simp
    · rw [dlookup_dinsert_ne _ _ h1, dlookup_dinsert_ne _ _ h1, if_neg h1]
  | some v =>
    simp only [hk, Option.isSome_some, if_true, Option.getD_some]
    by_cases h1 : k1 = k
    · rw [h1, dlookup_dinsert_self, if_pos rfl]
    · rw [dlookup_dinsert_ne _ _ h1, if_neg h1]

theorem assign_mirrors (h : HospitalStateImpl) (s : SID) (p : PID)
    (hm : Mirrors h.staff_assignments h.patient_assignments) :
    Mirrors (h.assign s p).staff_assignments (h.assign s p).patient_assignments := by
  intro s1 p1
  show p1 ∈ (dlookup s1 (HospitalStateImpl.addTo s p (HospitalStateImpl.ensureKey s h.staff_assignments))).getD ∅ ↔
       s1 ∈ (dlookup p1 (HospitalStateImpl.addTo p s (HospitalStateImpl.ensureKey p h.patient_assignments))).getD ∅
  rw [dlookup_addTo_ensureKey, dlookup_addTo_ensureKey]
  by_cases hs1 : s1 = s <;> by_cases hp1 : p1 = p
  · rw [hs1, hp1, if_pos rfl, if_pos rfl]
    simp
  · rw [hs1, if_pos rfl, if_neg hp1]
    simp only [Option.getD_some, Finset.mem_insert]
    have hm1 := hm s p1
    constructor
    · intro hmem
      rcases hmem with h3 | h3
      · exact absurd h3 hp1
      · exact hm1.1 h3
    · intro hmem
      exact Or.inr (hm1.2 hmem)
  · rw [hp1, if_neg hs1, if_pos rfl]
    simp only [Option.getD_some, Finset.mem_insert]
    have hm1 := hm s1 p
    constructor
    · intro hmem
      exact Or.inr (hm1.1 hmem)
    · intro hmem
      rcases hmem with h3 | h3
      · exact absurd h3 hs1
      · exact hm1.2 h3
  · rw [if_neg hs1, if_neg hp1]
    exact hm s1 p1

theorem end_shift_ok_mirrors {h h2 : HospitalStateImpl} {s : SID} {t : Int}
    (hm : Mirrors h.staff_assignments h.patient_assignments)
    (hok : h.end_shift s t = .ok h2) :
    Mirrors h2.staff_assignments h2.patient_assignments := by
  unfold HospitalStateImpl.end_shift at hok
  split at hok
  · exact absurd hok (by simp)
  · rename_i h1 hstep
    split at hok
    · exact absurd hok (by simp)
    · rename_i stat hstat
      simp only [Except.ok.injEq] at hok
      rw [← hok]
      have hm1 : Mirrors h1.staff_assignments h1.patient_assignments := by
        split at hstep
        · exact unassignPatients_ok_mirrors s _ h h1 hm hstep
        · simp only [Except.ok.injEq] at hstep
          rw [← hstep]
          exact hm
      exact hm1

theorem discharge_ok_mirrors {h h2 : HospitalStateImpl} {p : PID}
    (hm : Mirrors h.staff_assignments h.patient_assignments)
    (hgk : GoodKeys h)
    (hok : h.discharge_patient p = .ok h2) :
    Mirrors h2.staff_assignments h2.patient_assignments := by
  unfold HospitalStateImpl.discharge_patient at hok
  split at hok
  · rename_i hpmem
    split at hok
    · exact absurd hok (by simp)
    · rename_i hb hloop
      obtain ⟨hmb, hgkb, hsub⟩ :=
        unassignStaffOf_ok p (setList (h.get_staff p))
          { h with patients := derase p h.patients } hb hm hgk hloop
      have hempty : ∀ s, s ∉ (dlookup p hb.patient_assignments).getD ∅ := by
        intro s hsmem
        obtain ⟨hin, hnotin⟩ := hsub s hsmem
        exact hnotin (mem_setList.2 hin)
      split at hok
      · rename_i hpa
        simp only [Except.ok.injEq] at hok
        rw [← hok]
        intro s1 p1
        show p1 ∈ (dlookup s1 hb.staff_assignments).getD ∅ ↔
             s1 ∈ (dlookup p1 (derase p hb.patient_assignments)).getD ∅
        by_cases hp1 : p1 = p
        · rw [hp1, dlookup_derase_self _ _ hgkb.2]
          simp only [Option.getD_none, Finset.not_mem_empty, iff_false]
          intro hmem
          exact hempty s1 ((hmb s1 p).1 hmem)
        · rw [dlookup_derase_ne _ hp1]
          exact hmb s1 p1
      · rename_i hpa
        simp only [Except.ok.injEq] at hok
        rw [← hok]
        exact hmb
  · exact absurd hok (by simp)

theorem runGo_perm (fuel max_time : Nat) (q : List SimEvent)
    (hfuel : q.length ≤ fuel) (hall : ∀ e ∈ q, e.time ≤ max_time) :
    (runGo fuel max_time q).Perm q := by
  induction fuel generalizing q with
  | zero =>
    have : q = [] := List.length_eq_zero.1 (Nat.le_zero.1 hfuel)
    simp [this, runGo]
  | succ n ih =>
    simp only [runGo]
    rcases h : popMin q with _ | ⟨e, rest⟩
    · simp [popMin_eq_none.1 h]
    · have hperm := popMin_perm h
      have hmem : e ∈ q := hperm.mem_iff.1 (List.mem_cons_self _ _)
      have ht : ¬ max_time < e.time := by
        have := hall e hmem
        omega
      simp only [ht, if_false]
      have hlen : rest.length + 1 = q.length := by
        simpa using hperm.length_eq
      have hrest : (runGo n max_time rest).Perm rest := by
        refine ih rest (by omega) ?_
        intro x hx
        exact hall x (hperm.mem_iff.1 (List.mem_cons_of_mem _ hx))
      exact (hrest.cons e).trans hperm

theorem lexLe_iff {a b : SimEvent} :
    a.lexLe b = true ↔ (a.time < b.time ∨ (a.time = b.time ∧ a.seq ≤ b.seq)) := by
  simp [SimEvent.lexLe]

/-! ## Lemmas on StaffForceStatus.unassign and the iteration error -/

theorem sfs_unassign_active_step (warn : Bool) {st : StaffForceStatus} {pid sid : Nat}
    {ps : Finset PID} {shift : ShiftType} {asg : StaffAssignment}
    (hactive : dlookup sid st.staff_to_patient = some ps) (hp : pid ∈ ps)
    (hshift2 : dlookup sid st.staff_to_shift = some shift)
    (hasg : dlookup pid st.patient_to_staff = some asg) :
    ∃ st2, st.unassign pid sid warn = .ok st2 ∧
      dlookup sid st2.staff_to_patient = some (ps.erase pid) := by
  unfold StaffForceStatus.unassign
  rw [hactive]
  simp only [hp, if_pos]
  rw [hshift2, hasg]
  simp only []
  by_cases hget : asg.get shift = some sid
  · rw [if_pos hget]
    exact ⟨_, rfl, dlookup_dinsert_self _ _ _⟩
  · rw [if_neg hget]
    exact ⟨_, rfl, dlookup_dinsert_self _ _ _⟩

theorem make_unavailable_busy_staff_errors (st : StaffForceStatus) (sid : SID)
    (time : Int) (warn : Bool) (ps : Finset PID)
    (hactive : dlookup sid st.staff_to_patient = some ps)
    (hne : ps.Nonempty)
    (hshift : (dlookup sid st.staff_to_shift).isSome = true)
    (hpat : ∀ p ∈ ps, (dlookup p st.patient_to_staff).isSome = true) :
    st.make_unavailable sid time warn = .error .runtimeError := by
  obtain ⟨p0, l0, hsl⟩ := List.exists_cons_of_ne_nil (setList_ne_nil hne)
  have hp0 : p0 ∈ ps := mem_setList.1 (by rw [hsl]; exact List.mem_cons_self _ _)
  obtain ⟨shift, hshift2⟩ := Option.isSome_iff_exists.1 hshift
  obtain ⟨asg, hasg⟩ := Option.isSome_iff_exists.1 (hpat p0 hp0)
  obtain ⟨st2, hok2, hstp2⟩ :=
    sfs_unassign_active_step warn hactive hp0 hshift2 hasg
  have hcard : 0 < ps.card := Finset.card_pos.2 hne
  have hiter : StaffForceStatus.iterUnassign sid warn ps.card (setList ps) st
      = .error .runtimeError := by
    rw [hsl]
    unfold StaffForceStatus.iterUnassign
    rw [hactive]
    simp only [Option.getD_some]
    rw [if_neg (by omega)]
    rw [hok2]
    unfold StaffForceStatus.iterUnassign
    rw [hstp2]
    simp only [Option.getD_some]
    rw [if_pos (by rw [Finset.card_erase_of_mem hp0]; omega)]
  unfold StaffForceStatus.make_unavailable
  simp only [hactive]
  rw [hiter]

/-! ## The claims -/

/-- Claim C1: the capacity invariant of the spec (`|vent holders| ≤ vent_capacity`
at every observable point, in particular after `PatientHandler.handle_admit`,
which only runs when the configured criteria admitted the patient) fails on
the code: with capacities beds = 1, vents = 0 and an arriving patient that
does not require a ventilator, `BedAndVentilatorCriteria.decide_admit`
admits, yet `handle_admit` unconditionally assigns a ventilator as well as a
bed, leaving one ventilator holder against a capacity of zero. -/
theorem C1_vent_capacity_violated_after_admission :
    BedAndVentilatorCriteria.decideAdmission ⟨1, 0, ∅, ∅⟩ ⟨false⟩ = true ∧
    ((PatientHandler.admissionResources ⟨1, 0, ∅, ∅⟩ 7).vent_patients.card : Int) >
      (PatientHandler.admissionResources ⟨1, 0, ∅, ∅⟩ 7).ventilators := by
  constructor
  · rfl
  · decide

/-- Claim C2: for every hospital state whose staff→patients and
patient→staff maps mirror each other (and have proper dict keys), a single
normally-completing call to `assign`, `unassign`, `end_shift` (the
make-unavailable operation of `HospitalStateImpl`) or `discharge_patient`
(its remove-patient operation) leaves the maps mirroring each other:
`p ∈ patients(s) ↔ s ∈ staff(p)`. -/
theorem C2_graph_stays_symmetric (h : HospitalStateImpl) (s : SID) (p : PID) (t : Int)
    (hgk : GoodKeys h) (hm : Mirrors h.staff_assignments h.patient_assignments) :
    Mirrors (h.assign s p).staff_assignments (h.assign s p).patient_assignments ∧
    (∀ h2, h.unassign s p = .ok h2 →
        Mirrors h2.staff_assignments h2.patient_assignments) ∧
    (∀ h2, h.end_shift s t = .ok h2 →
        Mirrors h2.staff_assignments h2.patient_assignments) ∧
    (∀ h2, h.discharge_patient p = .ok h2 →
        Mirrors h2.staff_assignments h2.patient_assignments) :=
  ⟨assign_mirrors h s p hm, fun _ hok => unassign_ok_mirrors hm hok,
   fun _ hok => end_shift_ok_mirrors hm hok,
   fun _ hok => discharge_ok_mirrors hm hgk hok⟩

/-- Witness for C2 at the concrete state `hospC2` (staff 3 ↔ patient 4). -/
theorem C2_graph_stays_symmetric_witness :
    GoodKeys hospC2 ∧ Mirrors hospC2.staff_assignments hospC2.patient_assignments ∧
    (Mirrors (hospC2.assign 3 4).staff_assignments (hospC2.assign 3 4).patient_assignments ∧
     (∀ h2, hospC2.unassign 3 4 = .ok h2 →
         Mirrors h2.staff_assignments h2.patient_assignments) ∧
     (∀ h2, hospC2.end_shift 3 0 = .ok h2 →
         Mirrors h2.staff_assignments h2.patient_assignments) ∧
     (∀ h2, hospC2.discharge_patient 4 = .ok h2 →
         Mirrors h2.staff_assignments h2.patient_assignments)) := by
  have hgk : GoodKeys hospC2 := by
    constructor <;> simp [hospC2, dkeys]
  have hm : Mirrors hospC2.staff_assignments hospC2.patient_assignments := by
    intro s p
    show p ∈ (dlookup s [(3, ({4} : Finset PID))]).getD ∅ ↔
         s ∈ (dlookup p [(4, ({3} : Finset SID))]).getD ∅
    by_cases hs : s = 3 <;> by_cases hp : p = 4 <;> simp [dlookup, hs, hp]
  exact ⟨hgk, hm, C2_graph_stays_symmetric hospC2 3 4 0 hgk hm⟩

/-- Claim C3: the staff state machine of the spec (exactly one of AVAILABLE,
ACTIVE, UNAVAILABLE per staff id; only the three listed transitions) fails on
the code: `make_available` adds an UNAVAILABLE staff to the available set
without removing it from the unavailable set, leaving staff 0 in two states
at once, and `make_unavailable` silently moves an AVAILABLE staff 1 straight
to UNAVAILABLE, a transition the spec says does not exist. -/
theorem C3_state_machine_violated :
    (0 ∈ (sfsC3.make_available 0 true).available_staff ∧
     0 ∈ (sfsC3.make_available 0 true).unavailable_staff) ∧
    sfsC3b.make_unavailable 1 7 true = .ok ⟨[], [], [], [], [], ∅, {1}, [(1, 7)]⟩ := by
  constructor
  · constructor <;> decide
  · rfl

/-- Claim C4: `FirstComeFirstServedPolicy.arrival_assignment` declines (`None`)
iff all beds are used, or the patient requires a ventilator and all
ventilators are used; any granted assignment has `given_bed = True`,
`given_ventilator` exactly when severity is REQ_VENT, and no staff. -/
theorem C4_fcfs_decline_iff (pol : FirstComeFirstServedPolicy)
    (arrival : PatientArrival) (hospital : HospitalStateImpl) :
    (pol.arrival_assignment arrival hospital = none ↔
      pol.max_beds ≤ hospital.num_beds_used ∨
        (arrival.status.covid_severity = some InfectionSeverity.REQ_VENT ∧
          pol.max_ventilators ≤ hospital.num_vented)) ∧
    (pol.arrival_assignment arrival hospital = none ∨
      pol.arrival_assignment arrival hospital =
        some ⟨none, some true,
              some (decide (arrival.status.covid_severity =
                      some InfectionSeverity.REQ_VENT))⟩) := by
  unfold FirstComeFirstServedPolicy.arrival_assignment
  by_cases hbeds : pol.max_beds ≤ hospital.num_beds_used <;>
    by_cases hsev : arrival.status.covid_severity = some InfectionSeverity.REQ_VENT <;>
      by_cases hvent : pol.max_ventilators ≤ hospital.num_vented <;>
        simp [hbeds, hsev, hvent]

/-- Claim C5: `run` dispatches scheduled events in nondecreasing time order
with equal-time events in sequence-id (scheduling) order, and — when no
event has a time above `max_time` — dispatches each scheduled event exactly
once (the output is a permutation of the queue). -/
theorem C5_run_dispatch_order (q : List SimEvent) (max_time : Nat) :
    (run max_time q).Pairwise
      (fun a b => a.time < b.time ∨ (a.time = b.time ∧ a.seq ≤ b.seq)) ∧
    ((∀ e ∈ q, e.time ≤ max_time) → (run max_time q).Perm q) := by
  constructor
  · exact (runGo_pairwise q.length max_time q).imp (fun hab => lexLe_iff.1 hab)
  · intro hall
    exact runGo_perm q.length max_time q le_rfl hall

/-- Witness for C5 on three concrete events, two sharing a timestamp. -/
theorem C5_run_dispatch_order_witness :
    (∀ e ∈ eventsC5, e.time ≤ 5) ∧
    (run 5 eventsC5).Pairwise
      (fun a b => a.time < b.time ∨ (a.time = b.time ∧ a.seq ≤ b.seq)) ∧
    (run 5 eventsC5).Perm eventsC5 :=
  ⟨by decide, (C5_run_dispatch_order eventsC5 5).1,
   (C5_run_dispatch_order eventsC5 5).2 (by decide)⟩

/-- Claim C6: `remove_bed`/`remove_vent` remove a holding patient from the
holder set (no warning); on an absent patient with the strict (`warn`) flag
set they leave the set unchanged and emit the consistency warning (the §7
ConsistencyError signal), and with the flag unset they are a silent no-op. -/
theorem C6_release_behaviour (r : ResourceState) (pid : PID) (strict : Bool) :
    (pid ∈ r.bed_patients →
      r.remove_bed pid strict = ({ r with bed_patients := r.bed_patients.erase pid }, false)) ∧
    (pid ∉ r.bed_patients → r.remove_bed pid strict = (r, strict)) ∧
    (pid ∈ r.vent_patients →
      r.remove_vent pid strict = ({ r with vent_patients := r.vent_patients.erase pid }, false)) ∧
    (pid ∉ r.vent_patients → r.remove_vent pid strict = (r, strict)) := by
  refine ⟨fun hmem => ?_, fun hmem => ?_, fun hmem => ?_, fun hmem => ?_⟩ <;>
    simp [ResourceState.remove_bed, ResourceState.remove_vent, hmem]

/-- Witness for C6 at `rC6`: patient 1 holds a bed and no ventilator. -/
theorem C6_release_behaviour_witness :
    1 ∈ rC6.bed_patients ∧
    rC6.remove_bed 1 true = ({ rC6 with bed_patients := rC6.bed_patients.erase 1 }, false) ∧
    1 ∉ rC6.vent_patients ∧
    rC6.remove_vent 1 true = (rC6, true) :=
  ⟨by decide, (C6_release_behaviour rC6 1 true).1 (by decide), by decide,
   (C6_release_behaviour rC6 1 true).2.2.2 (by decide)⟩

/-- Claim C7: the claim says `make_unavailable` on an ACTIVE staff member
symmetrically unassigns every held patient, returns exactly that set as the
orphaned patients and records `last_shift_end`; on the code (state.py) the
call returns `None` — it has no return statement — and for a staff member
with at least one patient it raises `RuntimeError` (set changed size during
iteration) before finishing, as evaluated here on staff 0 holding patient 1. -/
theorem C7_make_unavailable_crashes_on_busy_staff :
    sfsC7.make_unavailable 0 5 true = .error .runtimeError :=
  make_unavailable_busy_staff_errors sfsC7 0 5 true {1}
    (by decide) (by decide) (by decide) (by decide)

/-- Claim C8: the claim says the no-rested-staff branch of
`LeastBusyPolicy.eos_restaff` gives each orphan to the active staff member
with the greatest remaining capacity; on the code `excess_capacity` is
`num_patients - max_patients` (a negative number) and `max()` over it picks
the staff with the most patients, i.e. the least remaining capacity: with cap
2, staff 10 holding no patients and staff 20 holding one, the orphan 5 goes
to staff 20. -/
theorem C8_spread_picks_most_loaded_staff :
    LeastBusyPolicy.eos_restaff polC8 100 [5] hospC8 = .ok ⟨[], [(5, 20)]⟩ ∧
    HospitalStateImpl.num_patients hospC8 20 = some 1 ∧
    HospitalStateImpl.num_patients hospC8 10 = some 0 :=
  ⟨rfl, rfl, rfl⟩

/-- Claim C9: the claim says a discharge event for an already-exited patient
is a no-op or a reported recoverable anomaly and never double-frees; on the
code the holder sets are indeed never decremented twice, but because
`discharge_patient` never adds the patient to `_prev_patients`, `has_exited`
is still `False` after the first discharge and the second exit event calls
`discharge_patient` again, which raises a fatal `RuntimeError` instead of
being a no-op or recoverable anomaly. -/
theorem C9_second_exit_is_fatal :
    hospC9pre.discharge_patient 0 = .ok hospC9post ∧
    hospC9post.has_exited 0 = false ∧
    handle_patient_exit hospC9post 0 Outcome.LIVES = .error .runtimeError := by
  refine ⟨?_, rfl, ?_⟩
  · unfold HospitalStateImpl.discharge_patient
    rw [show setList (hospC9pre.get_staff 0) = [] from by
      simp [setList, HospitalStateImpl.get_staff, hospC9pre, dlookup]]
    rfl
  · unfold handle_patient_exit HospitalStateImpl.discharge_patient
    rw [show setList (hospC9post.get_staff 0) = [] from by
      simp [setList, HospitalStateImpl.get_staff, hospC9post, dlookup]]
    rfl

/-- Claim C10: for every staff member that is ACTIVE (a key of
`_staff_to_patient`) with at least one assigned patient — the shift of the staff
being recorded and the first patient known to `_patient_to_staff`, so that
the single `unassign` that runs does not fail earlier — `make_unavailable`
does not complete normally: `get_patients` hands the loop the live set,
`unassign` shrinks it during iteration, and the embedded CPython iterator
check raises `RuntimeError`. -/
theorem C10_make_unavailable_mutation_error (st : StaffForceStatus) (sid : SID)
    (time : Int) (warn : Bool) (ps : Finset PID)
    (hactive : dlookup sid st.staff_to_patient = some ps)
    (hne : ps.Nonempty)
    (hshift : (dlookup sid st.staff_to_shift).isSome = true)
    (hpat : ∀ p ∈ ps, (dlookup p st.patient_to_staff).isSome = true) :
    st.make_unavailable sid time warn = .error .runtimeError :=
  make_unavailable_busy_staff_errors st sid time warn ps hactive hne hshift hpat

/-- Witness for C10 at `sfsC10`: staff 9 is active with patient 2. -/
theorem C10_make_unavailable_mutation_error_witness :
    dlookup 9 sfsC10.staff_to_patient = some {2} ∧
    ({2} : Finset PID).Nonempty ∧
    (dlookup 9 sfsC10.staff_to_shift).isSome = true ∧
    (∀ p ∈ ({2} : Finset PID), (dlookup p sfsC10.patient_to_staff).isSome = true) ∧
    sfsC10.make_unavailable 9 5 true = .error .runtimeError :=
  ⟨by decide, by decide, by decide, by decide,
   C10_make_unavailable_mutation_error sfsC10 9 5 true {2}
     (by decide) (by decide) (by decide) (by decide)⟩

end PPE
